import Mathlib

/-!
Verification of the fuse storage engine's block writer and block pruner
(`block_appender.rs`, `block_pruner.rs`) against its specification.

The Rust code is shallowly embedded: pure logic becomes Lean functions,
fallible paths become `Except`, and the storage accessor / predicate
compiler (external collaborators) become function parameters.  The
sequential trace semantics of `BlockPruner::apply` records every storage
read in program order; `buffered` on a futures stream yields results in
the order of the underlying stream, so the flattened result order is the
sequential one.
-/

/-- Error kinds surfaced by the engine (`common_exception::ErrorCode`,
restricted to the kinds this core produces). -/
inductive Err where
  | storage (msg : String)
  | serialization (msg : String)
  | unsupportedType (msg : String)
  | predicateCompilation (msg : String)
  deriving DecidableEq, Repr

/-- Scalar values carried by column statistics (`DataValue`); the engine
only needs a null marker plus orderable scalars, modelled here by `Int`. -/
inductive DataValue where
  | null
  | int (i : Int)
  deriving DecidableEq, Repr

/-- `DataValue::is_null`. -/
def DataValue.isNull : DataValue → Bool
  | .null => true
  | .int _ => false

/-- Column identifiers (`ColumnId`), assigned positionally. -/
abbrev ColumnId := Nat

/-- Declared column types (`DataType`), abstracted to a small closed set. -/
inductive DataType where
  | int64
  | utf8
  deriving DecidableEq, Repr

/-- Per-column statistics (`ColStats` / `ColumnStatistics`): min, max,
null count and row count. -/
structure ColStats where
  min : DataValue
  max : DataValue
  null_count : Nat
  row_count : Nat
  deriving DecidableEq, Repr

/-- A block's (or summary's) statistics: map from column id to `ColStats`
(`HashMap<ColumnId, ColStats>` modelled as an association list with
distinct positional keys). -/
abbrev BlockStatistics := List (ColumnId × ColStats)

/-- `BlockLocation`: storage path plus auxiliary metadata size. -/
structure BlockLocation where
  location : String
  meta_size : Nat
  deriving DecidableEq, Repr

/-- `BlockMeta`: one physical block file's metadata. -/
structure BlockMeta where
  location : BlockLocation
  row_count : Nat
  block_size : Nat
  col_stats : BlockStatistics
  deriving DecidableEq, Repr

/-- Aggregate statistics of a segment (`Stats`). -/
structure Stats where
  row_count : Nat
  block_count : Nat
  uncompressed_byte_size : Nat
  compressed_byte_size : Nat
  col_stats : BlockStatistics
  deriving DecidableEq, Repr

/-- `SegmentInfo`: ordered blocks plus their aggregate summary. -/
structure SegmentInfo where
  blocks : List BlockMeta
  summary : Stats
  deriving DecidableEq, Repr

/-- `TableSnapshot`: snapshot identifier and ordered segment locations. -/
structure TableSnapshot where
  snapshot_id : String
  segments : List String
  deriving DecidableEq, Repr

/-- A filter expression from the external planner, treated as opaque. -/
inductive Expr where
  | mk (tag : Nat)
  deriving DecidableEq, Repr

/-- `Extras`: the push-down information; only `filters` is consulted. -/
structure Extras where
  filters : List Expr
  deriving DecidableEq, Repr

/-- The scan schema (`DataSchemaRef`), treated as opaque field names. -/
structure DataSchema where
  fields : List String
  deriving DecidableEq, Repr

/-- A compiled range predicate over block statistics
(`Pred = Box<dyn Fn(&BlockStatistics) -> Result<bool>>`). -/
abbrev Pred := BlockStatistics → Except Err Bool

/-- Storage/read events performed by the pruner, in program order. -/
inductive ReadEvent where
  | snapshotRead (loc : String)
  | segmentRead (loc : String)
  deriving DecidableEq, Repr

/-- The pruner's external collaborators: snapshot and segment readers
(`SnapshotReader::read`, `SegmentReader::read` over the data accessor and
optional cache). -/
structure PrunerEnv where
  readSnapshot : String → Except Err TableSnapshot
  readSegment : String → Except Err SegmentInfo

/-- The predicate-compilation step of `BlockPruner::apply` (lines 57-64):
with a push-down holding a non-empty filter list, compile the FIRST
expression via `RangeFilter::try_create` (the external `compile`
parameter); otherwise the predicate is the constant `true`. -/
def compileStep (compile : Expr → DataSchema → Except Err Pred)
    (schema : DataSchema) : Option Extras → Except Err Pred
  | some exprs =>
    match exprs.filters with
    | e :: _ => compile e schema
    | [] => .ok fun _ => .ok true
  | none => .ok fun _ => .ok true

/-- The block-level `try_fold` inside `BlockPruner::filter_segment`
(lines 103-111), instrumented with the list of statistics the predicate
is evaluated on, in evaluation order. -/
def foldBlocks (pred : Pred) :
    List BlockMeta → List BlockMeta →
    Except Err (List BlockMeta) × List BlockStatistics
  | [], acc => (.ok acc, [])
  | b :: rest, acc =>
    match pred b.col_stats with
    | .error e => (.error e, [b.col_stats])
    | .ok true =>
      let r := foldBlocks pred rest (acc ++ [b])
      (r.1, b.col_stats :: r.2)
    | .ok false =>
      let r := foldBlocks pred rest acc
      (r.1, b.col_stats :: r.2)

/-- `BlockPruner::filter_segment` (lines 100-115), instrumented with the
statistics the predicate is evaluated on: evaluate the predicate on the
segment summary; if false the whole segment is discarded without looking
at any block; otherwise keep exactly the blocks whose own statistics
satisfy the predicate, in stored order. -/
def filterSegmentT (pred : Pred) (seg : SegmentInfo) :
    Except Err (List BlockMeta) × List BlockStatistics :=
  match pred seg.summary.col_stats with
  | .error e => (.error e, [seg.summary.col_stats])
  | .ok true =>
    let r := foldBlocks pred seg.blocks []
    (r.1, seg.summary.col_stats :: r.2)
  | .ok false => (.ok [], [seg.summary.col_stats])

/-- `BlockPruner::filter_segment`, result component only. -/
def filterSegment (pred : Pred) (seg : SegmentInfo) :
    Except Err (List BlockMeta) :=
  (filterSegmentT pred seg).1

/-- The segment fan-out of `BlockPruner::apply` (lines 79-94): load each
segment in snapshot order, filter it, and collect per-segment survivor
lists; `buffered` preserves the order of the source stream and
`try_collect` aborts at the first error, which this sequential model
renders as in-order processing.  Each segment read is recorded. -/
def segLoop (env : PrunerEnv) (pred : Pred) :
    List String → Except Err (List (List BlockMeta)) × List ReadEvent
  | [] => (.ok [], [])
  | loc :: rest =>
    match env.readSegment loc with
    | .error e => (.error e, [.segmentRead loc])
    | .ok seg =>
      match filterSegment pred seg with
      | .error e => (.error e, [.segmentRead loc])
      | .ok blocks =>
        let r := segLoop env pred rest
        ((r.1).map (blocks :: ·), .segmentRead loc :: r.2)

/-- `BlockPruner::apply` (lines 51-97), with its storage-read trace:
compile the predicate (before any read; a compilation error propagates
with an empty trace), read the snapshot, return immediately on an empty
segment list, otherwise fan out over segments and flatten the surviving
blocks. -/
def BlockPruner.applyT (compile : Expr → DataSchema → Except Err Pred)
    (env : PrunerEnv) (snapshotLoc : String) (schema : DataSchema)
    (pushDown : Option Extras) :
    Except Err (List BlockMeta) × List ReadEvent :=
  match compileStep compile schema pushDown with
  | .error e => (.error e, [])
  | .ok pred =>
    match env.readSnapshot snapshotLoc with
    | .error e => (.error e, [.snapshotRead snapshotLoc])
    | .ok snapshot =>
      if snapshot.segments.isEmpty then
        (.ok [], [.snapshotRead snapshotLoc])
      else
        let r := segLoop env pred snapshot.segments
        ((r.1).map List.flatten, .snapshotRead snapshotLoc :: r.2)

/-- `BlockPruner::apply`, result component only. -/
def BlockPruner.apply (compile : Expr → DataSchema → Except Err Pred)
    (env : PrunerEnv) (snapshotLoc : String) (schema : DataSchema)
    (pushDown : Option Extras) : Except Err (List BlockMeta) :=
  (BlockPruner.applyT compile env snapshotLoc schema pushDown).1

/-- Decidable equality on `Except`, needed to decide equality of column
variants that carry fallible min/max outcomes. -/
def exceptDecEq {ε α : Type} [DecidableEq ε] [DecidableEq α] :
    DecidableEq (Except ε α)
  | .error a, .error b =>
    if h : a = b then isTrue (by rw [h])
    else isFalse (by intro hh; cases hh; exact h rfl)
  | .error _, .ok _ => isFalse (by intro hh; cases hh)
  | .ok _, .error _ => isFalse (by intro hh; cases hh)
  | .ok a, .ok b =>
    if h : a = b then isTrue (by rw [h])
    else isFalse (by intro hh; cases hh; exact h rfl)

instance {ε α : Type} [DecidableEq ε] [DecidableEq α] :
    DecidableEq (Except ε α) := exceptDecEq

/-- One column of an in-memory batch (`DataColumn`): either backed by an
array series — whose min/max computations (external `Series::min/max`)
may fail with a type error and whose null count is given — or a single
repeated constant value with a size. -/
inductive DataColumn where
  | array (dtype : DataType) (minR maxR : Except Err DataValue)
      (nullCount : Nat)
  | constant (dtype : DataType) (v : DataValue) (size : Nat)
  deriving DecidableEq, Repr

/-- `DataColumn::data_type`. -/
def DataColumn.dataType : DataColumn → DataType
  | .array dt _ _ _ => dt
  | .constant dt _ _ => dt

/-- The `min` match arm in `block_stats` (lines 118-121). -/
def DataColumn.minValue : DataColumn → Except Err DataValue
  | .array _ mn _ _ => mn
  | .constant _ v _ => .ok v

/-- The `max` match arm in `block_stats` (lines 123-126). -/
def DataColumn.maxValue : DataColumn → Except Err DataValue
  | .array _ _ mx _ => mx
  | .constant _ v _ => .ok v

/-- The `null_count` match arm in `block_stats` (lines 128-137): an array
column reports its series null count; a constant column reports 1 when
the constant is null and 0 otherwise. -/
def DataColumn.nullCountValue : DataColumn → Nat
  | .array _ _ _ nc => nc
  | .constant _ v _ => if v.isNull then 1 else 0

/-- An in-memory columnar batch (`DataBlock`): row count, in-memory size
estimate and columns in schema order. -/
structure DataBlock where
  numRows : Nat
  memorySize : Nat
  columns : List DataColumn
  deriving DecidableEq, Repr

/-- A per-block statistics map with declared types
(`HashMap<ColumnId, (DataType, ColStats)>` as an association list over
the distinct positional keys 0, 1, 2, …). -/
abbrev BlockStatsMap := List (ColumnId × DataType × ColStats)

/-- The indexed fold of `block_stats` (lines 114-149): zip the columns
with positions 0, 1, 2, … and for each column compute min, max (either
may fail for an array column) and null count, recording `row_count` as
the block's row count. -/
def blockStatsGo (rowCount : Nat) : Nat → List DataColumn →
    Except Err BlockStatsMap
  | _, [] => .ok []
  | idx, c :: rest =>
    match c.minValue with
    | .error e => .error e
    | .ok mn =>
      match c.maxValue with
      | .error e => .error e
      | .ok mx =>
        match blockStatsGo rowCount (idx + 1) rest with
        | .error e => .error e
        | .ok tail =>
          .ok ((idx, c.dataType,
            { min := mn, max := mx, null_count := c.nullCountValue,
              row_count := rowCount }) :: tail)

/-- `block_stats` (lines 109-150). -/
def blockStats (b : DataBlock) : Except Err BlockStatsMap :=
  blockStatsGo b.numRows 0 b.columns

/-- The running accumulators of `BlockAppender::append_blocks`
(lines 49-54): collected block metadata, collected per-block statistics
maps, and the four summary counters. -/
structure AppendState where
  block_metas : List BlockMeta
  blocks_stats : List BlockStatsMap
  summary_row_count : Nat
  summary_block_count : Nat
  summary_uncompressed_byte_size : Nat
  summary_compressed_byte_size : Nat

/-- The initial accumulator state of an append call. -/
def AppendState.init : AppendState :=
  { block_metas := [], blocks_stats := [], summary_row_count := 0,
    summary_block_count := 0, summary_uncompressed_byte_size := 0,
    summary_compressed_byte_size := 0 }

/-- One iteration of the `while let` loop in `append_blocks`
(lines 56-92) on the `idx`-th block of the stream: compute the block
statistics, generate a location, persist the block (the external
`save_block` outcome is `save idx`, returning the physical file size),
build the `BlockMeta` (dropping declared types from the statistics map,
`meta_size` fixed at 0) and update the running counters. -/
def appendStep (genLoc : Nat → String) (save : Nat → Except Err Nat)
    (idx : Nat) (st : AppendState) (block : DataBlock) :
    Except Err AppendState :=
  match blockStats block with
  | .error e => .error e
  | .ok blkStats =>
    match save idx with
    | .error e => .error e
    | .ok fileSize =>
      let blockInfo : BlockMeta :=
        { location := { location := genLoc idx, meta_size := 0 },
          row_count := block.numRows, block_size := block.memorySize,
          col_stats := blkStats.map fun p => (p.1, p.2.2) }
      .ok { block_metas := st.block_metas ++ [blockInfo],
            blocks_stats := st.blocks_stats ++ [blkStats],
            summary_block_count := st.summary_block_count + 1,
            summary_row_count := st.summary_row_count + block.numRows,
            summary_compressed_byte_size :=
              st.summary_compressed_byte_size + fileSize,
            summary_uncompressed_byte_size :=
              st.summary_uncompressed_byte_size + block.memorySize }

/-- The whole `while let` loop of `append_blocks`: the finite batch
stream is consumed strictly sequentially, and the first error aborts. -/
def appendLoop (genLoc : Nat → String) (save : Nat → Except Err Nat) :
    Nat → AppendState → List DataBlock → Except Err AppendState
  | _, st, [] => .ok st
  | idx, st, b :: rest =>
    match appendStep genLoc save idx st b with
    | .error e => .error e
    | .ok st2 => appendLoop genLoc save (idx + 1) st2 rest

/-- Ordering of statistics values under the column's native ordering;
`none` when the two values are not comparable. -/
def DataValue.leB : DataValue → DataValue → Option Bool
  | .null, .null => some true
  | .int a, .int b => some (a ≤ b)
  | _, _ => none

/-- Modelled from the spec: the minimum of two statistics values in the
reduction of §4.1 (`column_stats_reduce` is not under `src/`); an
incomparable pair is an unsupported-type failure. -/
def valueMin (a b : DataValue) : Except Err DataValue :=
  match a.leB b with
  | some true => .ok a
  | some false => .ok b
  | none => .error (.unsupportedType "not comparable")

/-- Modelled from the spec: the maximum of two statistics values in the
reduction of §4.1. -/
def valueMax (a b : DataValue) : Except Err DataValue :=
  match a.leB b with
  | some true => .ok b
  | some false => .ok a
  | none => .error (.unsupportedType "not comparable")

/-- Modelled from the spec: combine one block's statistics for a column
into the running aggregate for that column (§4.1): min of mins, max of
maxes, sums of null counts and row counts. -/
def mergeColStats (acc cur : ColStats) : Except Err ColStats := do
  let mn ← valueMin acc.min cur.min
  let mx ← valueMax acc.max cur.max
  .ok { min := mn, max := mx,
        null_count := acc.null_count + cur.null_count,
        row_count := acc.row_count + cur.row_count }

/-- Modelled from the spec: look up a column id in a per-block map; a
column id absent from some block of the segment is a format error
(§4.1). -/
def lookupCol (id : ColumnId) (m : BlockStatsMap) : Except Err ColStats :=
  match m.find? (fun p => p.1 = id) with
  | some p => .ok p.2.2
  | none => .error (.serialization "column id missing from block stats")

/-- Modelled from the spec: fold one column id's statistics across all
blocks of the segment. -/
def reduceColumn (maps : List BlockStatsMap) (id : ColumnId)
    (first : ColStats) : Except Err ColStats :=
  maps.foldlM (fun acc m => do mergeColStats acc (← lookupCol id m)) first

/-- Modelled from the spec: `column_stats_reduce` (referenced at line 94
of `block_appender.rs` but defined outside `src/`): reduce the per-block
statistics maps into one aggregate map per column id, per §4.1.  The
column ids are those of the first block; every id must appear in every
block. -/
def column_stats_reduce (maps : List BlockStatsMap) :
    Except Err BlockStatistics :=
  match maps with
  | [] => .ok []
  | first :: rest =>
    first.mapM fun p => do
      let agg ← reduceColumn rest p.1 p.2.2
      .ok (p.1, agg)

/-- `BlockAppender::append_blocks` (lines 45-106): run the sequential
loop from the empty accumulator, reduce the collected per-block
statistics into the summary column statistics, and assemble the
`SegmentInfo` with the four running counters. -/
def append_blocks (genLoc : Nat → String) (save : Nat → Except Err Nat)
    (blocks : List DataBlock) : Except Err SegmentInfo :=
  match appendLoop genLoc save 0 AppendState.init blocks with
  | .error e => .error e
  | .ok st =>
    match column_stats_reduce st.blocks_stats with
    | .error e => .error e
    | .ok summary =>
      .ok { blocks := st.block_metas,
            summary :=
              { row_count := st.summary_row_count,
                block_count := st.summary_block_count,
                uncompressed_byte_size :=
                  st.summary_uncompressed_byte_size,
                compressed_byte_size := st.summary_compressed_byte_size,
                col_stats := summary } }

/-- The physical file size recorded for the `i`-th persisted block: the
successful result of the `i`-th `save_block` call (0 when that call did
not succeed, a case excluded wherever this is used). -/
def savedSize (save : Nat → Except Err Nat) (i : Nat) : Nat :=
  match save i with
  | .ok s => s
  | .error _ => 0

/-- The blocks of a list that survive block-level pruning under `pred`,
in stored order. -/
def survivors (pred : Pred) : List BlockMeta → List BlockMeta
  | [] => []
  | b :: rest =>
    if pred b.col_stats = .ok true then b :: survivors pred rest
    else survivors pred rest

/-- The blocks of a segment kept by `filter_segment`: none when the
summary fails the predicate, otherwise the surviving blocks in stored
order. -/
def keptBlocks (pred : Pred) (seg : SegmentInfo) : List BlockMeta :=
  if pred seg.summary.col_stats = .ok true then survivors pred seg.blocks
  else []

theorem foldBlocks_const_true (blocks acc : List BlockMeta) :
    foldBlocks (fun _ => .ok true) blocks acc =
      (.ok (acc ++ blocks), blocks.map BlockMeta.col_stats) := by
  induction blocks generalizing acc with
  | nil => simp [foldBlocks]
  | cons b rest ih => simp [foldBlocks, ih]

theorem filterSegment_const_true (seg : SegmentInfo) :
    filterSegment (fun _ => .ok true) seg = .ok seg.blocks := by
  simp [filterSegment, filterSegmentT, foldBlocks_const_true]

theorem foldBlocks_total (pred : Pred) (blocks acc : List BlockMeta)
    (h : ∀ s, ∃ x, pred s = .ok x) :
    (foldBlocks pred blocks acc).1 = .ok (acc ++ survivors pred blocks) := by
  induction blocks generalizing acc with
  | nil => simp [foldBlocks, survivors]
  | cons b rest ih =>
    obtain ⟨x, hx⟩ := h b.col_stats
    cases x with
    | true => simp [foldBlocks, hx, survivors, ih]
    | false => simp [foldBlocks, hx, survivors, ih]

theorem filterSegment_total (pred : Pred) (seg : SegmentInfo)
    (h : ∀ s, ∃ x, pred s = .ok x) :
    filterSegment pred seg = .ok (keptBlocks pred seg) := by
  obtain ⟨x, hx⟩ := h seg.summary.col_stats
  cases x with
  | true =>
    simp [filterSegment, filterSegmentT, hx, keptBlocks,
      foldBlocks_total pred seg.blocks [] h]
  | false => simp [filterSegment, filterSegmentT, hx, keptBlocks]

theorem segLoop_all_ok (env : PrunerEnv) (pred : Pred)
    (segOf : String → SegmentInfo) (keep : String → List BlockMeta) :
    ∀ locs : List String,
      (∀ l ∈ locs, env.readSegment l = .ok (segOf l)) →
      (∀ l ∈ locs, filterSegment pred (segOf l) = .ok (keep l)) →
      segLoop env pred locs =
        (.ok (locs.map keep), locs.map ReadEvent.segmentRead) := by
  intro locs
  induction locs with
  | nil => intro _ _; simp [segLoop]
  | cons l rest ih =>
    intro h1 h2
    have e1 := h1 l (by simp)
    have e2 := h2 l (by simp)
    have ihr := ih (fun x hx => h1 x (by simp [hx]))
      (fun x hx => h2 x (by simp [hx]))
    simp [segLoop, e1, e2, ihr, Except.map]

/-- C4: if the compiled predicate evaluates to false on a segment's
summary statistics, `filter_segment` returns no block of that segment and
the only statistics the predicate is ever evaluated on is the summary
itself — no block-level statistics are inspected. -/
theorem filterSegment_summary_false (pred : Pred) (seg : SegmentInfo)
    (h : pred seg.summary.col_stats = .ok false) :
    filterSegmentT pred seg = (.ok [], [seg.summary.col_stats]) := by
  simp [filterSegmentT, h]

def c4Stats : BlockStatistics :=
  [(0, { min := .int 0, max := .int 10, null_count := 0, row_count := 4 })]

def c4Seg : SegmentInfo :=
  { blocks := [{ location := { location := "b0", meta_size := 0 },
                 row_count := 4, block_size := 64, col_stats := c4Stats }],
    summary := { row_count := 4, block_count := 1,
                 uncompressed_byte_size := 64, compressed_byte_size := 80,
                 col_stats := c4Stats } }

def c4Pred : Pred := fun _ => .ok false

theorem filterSegment_summary_false_witness :
    c4Pred c4Seg.summary.col_stats = .ok false ∧
    filterSegmentT c4Pred c4Seg = (.ok [], [c4Seg.summary.col_stats]) :=
  ⟨rfl, filterSegment_summary_false c4Pred c4Seg rfl⟩

/-- C5: on a snapshot referencing zero segments, `BlockPruner::apply`
returns the empty block list and its storage-read trace is exactly the
snapshot read — no segment read happens. -/
theorem apply_empty_snapshot (compile : Expr → DataSchema → Except Err Pred)
    (env : PrunerEnv) (loc : String) (schema : DataSchema)
    (pushDown : Option Extras) (pred : Pred) (snap : TableSnapshot)
    (hc : compileStep compile schema pushDown = .ok pred)
    (hsnap : env.readSnapshot loc = .ok snap)
    (hempty : snap.segments = []) :
    BlockPruner.applyT compile env loc schema pushDown =
      (.ok [], [.snapshotRead loc]) := by
  simp [BlockPruner.applyT, hc, hsnap, hempty]

def c5Compile : Expr → DataSchema → Except Err Pred :=
  fun _ _ => .ok fun _ => .ok true

def c5Snap : TableSnapshot := { snapshot_id := "s-empty", segments := [] }

def c5Env : PrunerEnv :=
  { readSnapshot := fun _ => .ok c5Snap,
    readSegment := fun l => .error (.storage l) }

theorem apply_empty_snapshot_witness :
    compileStep c5Compile ⟨["x"]⟩ none = .ok (fun _ => .ok true) ∧
    c5Env.readSnapshot "loc" = .ok c5Snap ∧ c5Snap.segments = [] ∧
    BlockPruner.applyT c5Compile c5Env "loc" ⟨["x"]⟩ none =
      (.ok [], [.snapshotRead "loc"]) :=
  ⟨rfl, rfl, rfl,
    apply_empty_snapshot c5Compile c5Env "loc" ⟨["x"]⟩ none _ c5Snap rfl rfl rfl⟩

/-- C6: `BlockPruner::apply` compiles only the first push-down filter
expression; any further expressions are ignored, so pruning with
`e :: rest` is identical (result and trace) to pruning with `[e]`. -/
theorem apply_first_filter_only (compile : Expr → DataSchema → Except Err Pred)
    (env : PrunerEnv) (loc : String) (schema : DataSchema) (e : Expr)
    (rest : List Expr) :
    BlockPruner.applyT compile env loc schema (some ⟨e :: rest⟩) =
      BlockPruner.applyT compile env loc schema (some ⟨[e]⟩) := rfl

/-- C7: when compiling the first filter expression fails, the error is
propagated with an empty storage-read trace: no snapshot or segment read
is attempted. -/
theorem apply_compile_error_before_reads
    (compile : Expr → DataSchema → Except Err Pred) (env : PrunerEnv)
    (loc : String) (schema : DataSchema) (f : Expr) (rest : List Expr)
    (err : Err) (hc : compile f schema = .error err) :
    BlockPruner.applyT compile env loc schema (some ⟨f :: rest⟩) =
      (.error err, []) := by
  simp [BlockPruner.applyT, compileStep, hc]

def c7Compile : Expr → DataSchema → Except Err Pred :=
  fun _ _ => .error (.predicateCompilation "unsupported operator")

def c7Env : PrunerEnv :=
  { readSnapshot := fun _ => .ok { snapshot_id := "s", segments := ["g"] },
    readSegment := fun l => .error (.storage l) }

theorem apply_compile_error_before_reads_witness :
    c7Compile (.mk 0) ⟨["x"]⟩ = .error (.predicateCompilation "unsupported operator") ∧
    BlockPruner.applyT c7Compile c7Env "loc" ⟨["x"]⟩ (some ⟨[.mk 0]⟩) =
      (.error (.predicateCompilation "unsupported operator"), []) :=
  ⟨rfl, apply_compile_error_before_reads c7Compile c7Env "loc" ⟨["x"]⟩
    (.mk 0) [] (.predicateCompilation "unsupported operator") rfl⟩

/-- C1: with an absent push-down or an empty filter list the compiled
predicate is the constant `true`, and `BlockPruner::apply` returns every
block of every segment of the snapshot, whatever their statistics. -/
theorem apply_no_filter_returns_all
    (compile : Expr → DataSchema → Except Err Pred) (env : PrunerEnv)
    (loc : String) (schema : DataSchema) (pushDown : Option Extras)
    (snap : TableSnapshot) (segOf : String → SegmentInfo)
    (hpd : pushDown = none ∨ ∃ ex, pushDown = some ex ∧ ex.filters = [])
    (hsnap : env.readSnapshot loc = .ok snap)
    (hseg : ∀ l ∈ snap.segments, env.readSegment l = .ok (segOf l)) :
    BlockPruner.apply compile env loc schema pushDown =
      .ok ((snap.segments.map fun l => (segOf l).blocks).flatten) := by
  have hcs : compileStep compile schema pushDown = .ok fun _ => .ok true := by
    rcases hpd with h | ⟨ex, hex, hfil⟩
    · simp [h, compileStep]
    · subst hex
      cases ex with
      | mk filters => simp at hfil; simp [compileStep, hfil]
  by_cases hnil : snap.segments = []
  · simp [BlockPruner.apply, BlockPruner.applyT, hcs, hsnap, hnil]
  · have hsl := segLoop_all_ok env (fun _ => .ok true) segOf
      (fun l => (segOf l).blocks) snap.segments hseg
      (fun l _ => filterSegment_const_true (segOf l))
    simp [BlockPruner.apply, BlockPruner.applyT, hcs, hsnap, hnil, hsl,
      Except.map]

def c1SegA : SegmentInfo :=
  { blocks :=
      [{ location := { location := "a0", meta_size := 0 }, row_count := 2,
         block_size := 16,
         col_stats := [(0, { min := .int 0, max := .int 10,
                             null_count := 0, row_count := 2 })] },
       { location := { location := "a1", meta_size := 0 }, row_count := 3,
         block_size := 24,
         col_stats := [(0, { min := .int 20, max := .int 30,
                             null_count := 0, row_count := 3 })] }],
    summary := { row_count := 5, block_count := 2,
                 uncompressed_byte_size := 40,
                 compressed_byte_size := 50,
                 col_stats := [(0, { min := .int 0, max := .int 30,
                                     null_count := 0, row_count := 5 })] } }

def c1SegB : SegmentInfo :=
  { blocks :=
      [{ location := { location := "b0", meta_size := 0 }, row_count := 1,
         block_size := 8,
         col_stats := [(0, { min := .int 40, max := .int 50,
                             null_count := 0, row_count := 1 })] }],
    summary := { row_count := 1, block_count := 1,
                 uncompressed_byte_size := 8, compressed_byte_size := 10,
                 col_stats := [(0, { min := .int 40, max := .int 50,
                                     null_count := 0, row_count := 1 })] } }

def c1Snap : TableSnapshot := { snapshot_id := "s1", segments := ["A", "B"] }

def c1SegOf : String → SegmentInfo := fun l =>
  if l = "A" then c1SegA else c1SegB

def c1Env : PrunerEnv :=
  { readSnapshot := fun _ => .ok c1Snap,
    readSegment := fun l => .ok (c1SegOf l) }

def c1Compile : Expr → DataSchema → Except Err Pred :=
  fun _ _ => .error (.predicateCompilation "never called")

theorem apply_no_filter_returns_all_witness :
    c1Env.readSnapshot "loc" = .ok c1Snap ∧
    (∀ l ∈ c1Snap.segments, c1Env.readSegment l = .ok (c1SegOf l)) ∧
    BlockPruner.apply c1Compile c1Env "loc" ⟨["x"]⟩ none =
      .ok ((c1Snap.segments.map fun l => (c1SegOf l).blocks).flatten) :=
  ⟨rfl, fun _ _ => rfl,
    apply_no_filter_returns_all c1Compile c1Env "loc" ⟨["x"]⟩ none c1Snap
      c1SegOf (Or.inl rfl) rfl (fun _ _ => rfl)⟩

/-- C10: for a predicate that never errors, `BlockPruner::apply` returns
the surviving blocks in a deterministic order: segments contribute in the
order of the snapshot's segment list, and within each segment surviving
blocks appear in stored order (`buffered` yields in source order). -/
theorem apply_deterministic_order
    (compile : Expr → DataSchema → Except Err Pred) (env : PrunerEnv)
    (loc : String) (schema : DataSchema) (pushDown : Option Extras)
    (pred : Pred) (snap : TableSnapshot) (segOf : String → SegmentInfo)
    (hc : compileStep compile schema pushDown = .ok pred)
    (hp : ∀ s, ∃ x, pred s = .ok x)
    (hsnap : env.readSnapshot loc = .ok snap)
    (hseg : ∀ l ∈ snap.segments, env.readSegment l = .ok (segOf l)) :
    BlockPruner.apply compile env loc schema pushDown =
      .ok ((snap.segments.map fun l => keptBlocks pred (segOf l)).flatten) := by
  by_cases hnil : snap.segments = []
  · simp [BlockPruner.apply, BlockPruner.applyT, hc, hsnap, hnil]
  · have hsl := segLoop_all_ok env pred segOf
      (fun l => keptBlocks pred (segOf l)) snap.segments hseg
      (fun l _ => filterSegment_total pred (segOf l) hp)
    simp [BlockPruner.apply, BlockPruner.applyT, hc, hsnap, hnil, hsl,
      Except.map]

def c10Check : BlockStatistics → Bool
  | (_, cs) :: _ =>
    match cs.max with
    | .int v => decide (25 < v)
    | .null => true
  | [] => true

def c10Pred : Pred := fun s => .ok (c10Check s)

def c10Compile : Expr → DataSchema → Except Err Pred :=
  fun _ _ => .ok c10Pred

theorem apply_deterministic_order_witness :
    compileStep c10Compile ⟨["x"]⟩ (some ⟨[.mk 0]⟩) = .ok c10Pred ∧
    c1Env.readSnapshot "loc" = .ok c1Snap ∧
    (∀ l ∈ c1Snap.segments, c1Env.readSegment l = .ok (c1SegOf l)) ∧
    BlockPruner.apply c10Compile c1Env "loc" ⟨["x"]⟩ (some ⟨[.mk 0]⟩) =
      .ok ((c1Snap.segments.map fun l => keptBlocks c10Pred (c1SegOf l)).flatten) :=
  ⟨rfl, rfl, fun _ _ => rfl,
    apply_deterministic_order c10Compile c1Env "loc" ⟨["x"]⟩
      (some ⟨[.mk 0]⟩) c10Pred c1Snap c1SegOf rfl
      (fun s => ⟨c10Check s, rfl⟩) rfl (fun _ _ => rfl)⟩

theorem appendLoop_ok_spec (genLoc : Nat → String)
    (save : Nat → Except Err Nat) :
    ∀ (blocks : List DataBlock) (idx : Nat) (st st2 : AppendState),
      appendLoop genLoc save idx st blocks = .ok st2 →
      ∃ ms : List BlockMeta,
        st2.block_metas = st.block_metas ++ ms ∧
        ms.length = blocks.length ∧
        st2.summary_block_count = st.summary_block_count + ms.length ∧
        st2.summary_row_count =
          st.summary_row_count + (ms.map BlockMeta.row_count).sum ∧
        st2.summary_uncompressed_byte_size =
          st.summary_uncompressed_byte_size +
            (ms.map BlockMeta.block_size).sum ∧
        st2.summary_compressed_byte_size =
          st.summary_compressed_byte_size +
            ((List.range' idx blocks.length).map (savedSize save)).sum ∧
        ∀ i, idx ≤ i → i < idx + blocks.length → ∃ s, save i = .ok s := by
  intro blocks
  induction blocks with
  | nil =>
    intro idx st st2 h
    simp only [appendLoop] at h
    cases h
    refine ⟨[], by simp, by simp, by simp, by simp, by simp, by simp, ?_⟩
    intro i h1 h2
    simp only [List.length_nil, Nat.add_zero] at h2
    exact absurd h2 (Nat.not_lt.mpr h1)
  | cons b rest ih =>
    intro idx st st2 h
    simp only [appendLoop] at h
    cases hstep : appendStep genLoc save idx st b with
    | error e => rw [hstep] at h; cases h
    | ok st1 =>
      rw [hstep] at h
      obtain ⟨ms, h1, h2, h3, h4, h5, h6, h7⟩ := ih (idx + 1) st1 st2 h
      cases hbs : blockStats b with
      | error e => simp [appendStep, hbs] at hstep
      | ok bs =>
        cases hsv : save idx with
        | error e => simp [appendStep, hbs, hsv] at hstep
        | ok fs =>
          simp only [appendStep, hbs, hsv, Except.ok.injEq] at hstep
          subst hstep
          refine ⟨{ location := { location := genLoc idx, meta_size := 0 },
                    row_count := b.numRows, block_size := b.memorySize,
                    col_stats := bs.map fun p => (p.1, p.2.2) } :: ms,
            ?_, ?_, ?_, ?_, ?_, ?_, ?_⟩
          · simp at h1; simp [h1]
          · simp [h2]
          · simp at h3; simp [h3]; omega
          · simp at h4; simp [h4]; omega
          · simp at h5; simp [h5]; omega
          · simp at h6
            have hss : savedSize save idx = fs := by simp [savedSize, hsv]
            simp only [List.length_cons, List.range'_succ, List.map_cons,
              List.sum_cons, hss, h6]
            omega
          · intro i hle hlt
            simp only [List.length_cons] at hlt
            by_cases hi : i = idx
            · exact ⟨fs, by rw [hi]; exact hsv⟩
            · exact h7 i (by omega) (by omega)

/-- C2: whenever `append_blocks` returns a `SegmentInfo`, its summary
counters agree with the blocks it lists: `row_count` is the sum of the
per-block row counts, `block_count` is the number of blocks,
`uncompressed_byte_size` is the sum of the blocks' in-memory sizes, and
`compressed_byte_size` is the sum of the persisted file sizes reported by
the (necessarily successful) `save_block` calls. -/
theorem append_blocks_summary (genLoc : Nat → String)
    (save : Nat → Except Err Nat) (blocks : List DataBlock)
    (seg : SegmentInfo) (h : append_blocks genLoc save blocks = .ok seg) :
    seg.summary.row_count = (seg.blocks.map BlockMeta.row_count).sum ∧
    seg.summary.block_count = seg.blocks.length ∧
    seg.summary.uncompressed_byte_size =
      (seg.blocks.map BlockMeta.block_size).sum ∧
    seg.summary.compressed_byte_size =
      ((List.range seg.blocks.length).map (savedSize save)).sum ∧
    ∀ i < seg.blocks.length, ∃ s, save i = .ok s := by
  unfold append_blocks at h
  split at h
  next e heq => cases h
  next st heq =>
    split at h
    next e2 heq2 => cases h
    next summary heq2 =>
      cases h
      obtain ⟨ms, h1, h2, h3, h4, h5, h6, h7⟩ :=
        appendLoop_ok_spec genLoc save blocks 0 AppendState.init st heq
      simp only [AppendState.init, List.nil_append, Nat.zero_add] at h1 h3 h4 h5 h6
      refine ⟨?_, ?_, ?_, ?_, ?_⟩
      · simp [h1, h4]
      · simp [h1, h3]
      · simp [h1, h5]
      · simp only [h1, h6, h2, List.range_eq_range']
      · intro i hi
        simp only [h1] at hi
        exact h7 i (Nat.zero_le i) (by omega)

def c2Block1 : DataBlock :=
  { numRows := 2, memorySize := 10,
    columns := [.constant .int64 (.int 7) 2] }

def c2Block2 : DataBlock :=
  { numRows := 3, memorySize := 20,
    columns := [.constant .int64 (.int 4) 3] }

def c2GenLoc : Nat → String := fun _ => "blk"

def c2Save : Nat → Except Err Nat := fun i => .ok (100 + i)

def c2Seg : SegmentInfo :=
  { blocks :=
      [{ location := { location := "blk", meta_size := 0 }, row_count := 2,
         block_size := 10,
         col_stats := [(0, { min := .int 7, max := .int 7,
                             null_count := 0, row_count := 2 })] },
       { location := { location := "blk", meta_size := 0 }, row_count := 3,
         block_size := 20,
         col_stats := [(0, { min := .int 4, max := .int 4,
                             null_count := 0, row_count := 3 })] }],
    summary := { row_count := 5, block_count := 2,
                 uncompressed_byte_size := 30,
                 compressed_byte_size := 201,
                 col_stats := [(0, { min := .int 4, max := .int 7,
                                     null_count := 0, row_count := 5 })] } }

theorem append_blocks_summary_witness :
    append_blocks c2GenLoc c2Save [c2Block1, c2Block2] = .ok c2Seg ∧
    (c2Seg.summary.row_count = (c2Seg.blocks.map BlockMeta.row_count).sum ∧
     c2Seg.summary.block_count = c2Seg.blocks.length ∧
     c2Seg.summary.uncompressed_byte_size =
       (c2Seg.blocks.map BlockMeta.block_size).sum ∧
     c2Seg.summary.compressed_byte_size =
       ((List.range c2Seg.blocks.length).map (savedSize c2Save)).sum ∧
     ∀ i < c2Seg.blocks.length, ∃ s, c2Save i = .ok s) :=
  ⟨rfl, append_blocks_summary c2GenLoc c2Save [c2Block1, c2Block2] c2Seg rfl⟩

theorem appendLoop_append (genLoc : Nat → String)
    (save : Nat → Except Err Nat) :
    ∀ (l1 l2 : List DataBlock) (idx : Nat) (st : AppendState),
      appendLoop genLoc save idx st (l1 ++ l2) =
        match appendLoop genLoc save idx st l1 with
        | .error e => .error e
        | .ok st1 => appendLoop genLoc save (idx + l1.length) st1 l2 := by
  intro l1
  induction l1 with
  | nil => intro l2 idx st; simp [appendLoop]
  | cons b rest ih =>
    intro l2 idx st
    simp only [List.cons_append, appendLoop]
    cases appendStep genLoc save idx st b with
    | error e => rfl
    | ok st1 =>
      have hlen : idx + 1 + rest.length = idx + (rest.length + 1) := by
        omega
      simp only [List.append_eq, ih l2 (idx + 1) st1, List.length_cons,
        hlen]

/-- C8: if the sequential append pipeline reaches a block whose
`save_block` call fails (all earlier blocks processed successfully and
the failing block's statistics computed), `append_blocks` propagates that
storage error and returns no `SegmentInfo`. -/
theorem append_blocks_save_error_aborts (genLoc : Nat → String)
    (save : Nat → Except Err Nat) (pre : List DataBlock) (b : DataBlock)
    (post : List DataBlock) (st : AppendState) (e : Err)
    (hpre : appendLoop genLoc save 0 AppendState.init pre = .ok st)
    (hbs : ∃ bs, blockStats b = .ok bs)
    (hsave : save pre.length = .error e) :
    append_blocks genLoc save (pre ++ b :: post) = .error e := by
  obtain ⟨bs, hbs⟩ := hbs
  unfold append_blocks
  rw [appendLoop_append genLoc save pre (b :: post) 0 AppendState.init,
    hpre]
  simp only [appendLoop, appendStep, hbs, Nat.zero_add, hsave]

def c8Block : DataBlock :=
  { numRows := 1, memorySize := 4,
    columns := [.constant .int64 (.int 1) 1] }

def c8Save : Nat → Except Err Nat := fun _ => .error (.storage "io failure")

def c8GenLoc : Nat → String := fun _ => "loc"

def c8Stats : BlockStatsMap :=
  [(0, .int64, { min := .int 1, max := .int 1, null_count := 0,
                 row_count := 1 })]

theorem append_blocks_save_error_aborts_witness :
    appendLoop c8GenLoc c8Save 0 AppendState.init [] =
      .ok AppendState.init ∧
    blockStats c8Block = .ok c8Stats ∧
    c8Save (List.length ([] : List DataBlock)) =
      .error (.storage "io failure") ∧
    append_blocks c8GenLoc c8Save ([] ++ c8Block :: []) =
      .error (.storage "io failure") :=
  ⟨rfl, rfl, rfl,
    append_blocks_save_error_aborts c8GenLoc c8Save [] c8Block []
      AppendState.init (.storage "io failure") rfl ⟨c8Stats, rfl⟩ rfl⟩

/-- C3 (code bug): for a column backed by a single repeated constant,
`block_stats` records the constant itself as both min and max, and
null_count 0 for a non-null constant — but for a NULL constant it records
null_count = 1 instead of the row count: on a 5-row block whose only
column is the constant NULL, the recorded null_count is 1 and 1 ≠ 5. -/
theorem blockStats_constant_column :
    blockStats { numRows := 5, memorySize := 40,
                 columns := [.constant .int64 .null 5] } =
      .ok [(0, .int64, { min := .null, max := .null, null_count := 1,
                         row_count := 5 })] ∧
    blockStats { numRows := 5, memorySize := 40,
                 columns := [.constant .int64 (.int 9) 5] } =
      .ok [(0, .int64, { min := .int 9, max := .int 9, null_count := 0,
                         row_count := 5 })] ∧
    (1 : Nat) ≠ 5 := ⟨rfl, rfl, by decide⟩
